import Mathlib

/-!
# Reaktor: Python wrappers of the dense vector and matrix types, and the equilibrium result

A shallow embedding of `PyReaktor/Common/PyEigen.cpp` (the slicing wrappers
`WrapperEigenVector` and `WrapperEigenMatrix`) and of the data declared in
`Reaktor/Equilibrium/EquilibriumResult.hpp`.

Conventions of the embedding.

* A C++ function that mutates `self` and may throw is a function returning the
  pair `(self after the call, outcome)`, the outcome being `Except PyErr _`.
* `long` values are integers; the one place where the source can leave the range
  of `long` (`stop = start + 1`) wraps explicitly (`wrapLong`).  Conversions to
  the `int` and `unsigned` loop counters are explicit as well (`toInt`,
  `toUnsigned`).
* The scalar type of the templates is a type parameter `α`.
* Coefficient accesses of Eigen objects are bounds-checked: an access outside the
  extents is the fault `PyErr.EigenAssert`.
-/

namespace Reaktor

/-! ## Definitions -/

/-- The ways a wrapper call can end other than by returning: a Python exception set
by the wrapper (`IndexError`, `TypeError`), a C++ `error_already_set` thrown without a
Python error, and the range assertion of Eigen. -/
inductive PyErr where
  | IndexError (msg : String)
  | TypeError (msg : String)
  | ErrorAlreadySet
  | EigenAssert
  deriving DecidableEq, Repr

/-- The function `IndexError(msg)`: sets the Python `IndexError` and throws. -/
def IndexError {β : Type} (msg : String) : Except PyErr β :=
  .error (.IndexError msg)

/-- The function `SliceStepError()`: sets an `IndexError` with a fixed message and throws. -/
def SliceStepError {β : Type} : Except PyErr β :=
  .error (.IndexError "slice step size not supported")

/-- The function `TypeError(msg)`: sets the Python `TypeError` and throws. -/
def TypeError {β : Type} (msg : String) : Except PyErr β :=
  .error (.TypeError msg)

/-- Least value of the C++ type `long` (64 bits). -/
def LONG_MIN : Int := -9223372036854775808

/-- Greatest value of the C++ type `long` (64 bits). -/
def LONG_MAX : Int := 9223372036854775807

/-- Whether an integer is a value of the type `long`. -/
def isLong (x : Int) : Prop := LONG_MIN ≤ x ∧ x ≤ LONG_MAX

instance (x : Int) : Decidable (isLong x) := by
  unfold isLong; infer_instance

/-- Two's complement reduction of an integer to the range of `long`. -/
def wrapLong (x : Int) : Int :=
  (x + 9223372036854775808) % 18446744073709551616 - 9223372036854775808

/-- Conversion of a `long` to `int` (32 bits, two's complement). -/
def toInt (x : Int) : Int :=
  (x + 2147483648) % 4294967296 - 2147483648

/-- Conversion of a `long` to `unsigned` (32 bits). -/
def toUnsigned (x : Int) : Int :=
  x % 4294967296

/-- A `py::slice`: each of `start`, `stop` and `step` is `None` or a `long`. -/
structure PySlice where
  start : Option Int
  stop : Option Int
  step : Option Int
  deriving DecidableEq, Repr

/-- An argument of `WrapperEigenMatrix::get_slice_data`: a Python integer or a slice. -/
inductive PyIndex where
  | int (k : Int)
  | slice (s : PySlice)
  deriving DecidableEq, Repr

/-- The type `Eigen::Matrix<Scalar, -1, 1>`: the number of rows and the coefficients,
addressed by index; only the indices `0 ≤ i < rows` belong to the vector. -/
structure VectorType (α : Type) where
  rows : Nat
  coeff : Int → α

/-- The type `Eigen::Matrix<Scalar, -1, -1>`: the extents and the coefficients,
addressed by row and column; only `0 ≤ i < rows`, `0 ≤ j < cols` belong to the matrix. -/
structure MatrixType (α : Type) where
  rows : Nat
  cols : Nat
  coeff : Int → Int → α

/-- The vector holding the entries of a list, `default` elsewhere. -/
def VectorType.ofList {α : Type} [Inhabited α] (l : List α) : VectorType α :=
  ⟨l.length, fun i => if 0 ≤ i then l.getD i.toNat default else default⟩

/-- The matrix holding the rows of a list of lists, `default` elsewhere. -/
def MatrixType.ofRows {α : Type} [Inhabited α] (cols : Nat) (l : List (List α)) : MatrixType α :=
  ⟨l.length, cols, fun i j =>
    if 0 ≤ i ∧ 0 ≤ j then (l.getD i.toNat []).getD j.toNat default else default⟩

/-- The bounds-checked write `self[i] = x` of an Eigen vector. -/
def VectorType.write {α : Type} (self : VectorType α) (i : Int) (x : α) :
    VectorType α × Except PyErr Unit :=
  if 0 ≤ i ∧ i < self.rows then
    (⟨self.rows, fun k => if k = i then x else self.coeff k⟩, .ok ())
  else (self, .error .EigenAssert)

/-- The bounds-checked write `self(i, j) = x` of an Eigen matrix. -/
def MatrixType.write {α : Type} (self : MatrixType α) (i j : Int) (x : α) :
    MatrixType α × Except PyErr Unit :=
  if 0 ≤ i ∧ i < self.rows ∧ 0 ≤ j ∧ j < self.cols then
    (⟨self.rows, self.cols, fun a b => if a = i ∧ b = j then x else self.coeff a b⟩, .ok ())
  else (self, .error .EigenAssert)

/-- The bounds-checked read `self(i, j)` of an Eigen matrix. -/
def MatrixType.read {α : Type} (self : MatrixType α) (i j : Int) : Except PyErr α :=
  if 0 ≤ i ∧ i < self.rows ∧ 0 ≤ j ∧ j < self.cols then .ok (self.coeff i j)
  else .error .EigenAssert

/-- Eigen: `self.segment(start, n) = vec`.  The segment must lie inside `self` and the
sizes of the two sides must agree; the coefficients of `vec` are then copied. -/
def VectorType.assignSegment {α : Type} (self : VectorType α) (start n : Int)
    (vec : VectorType α) : VectorType α × Except PyErr Unit :=
  if 0 ≤ start ∧ 0 ≤ n ∧ start + n ≤ self.rows ∧ (vec.rows : Int) = n then
    (⟨self.rows, fun k => if start ≤ k ∧ k < start + n then vec.coeff (k - start)
        else self.coeff k⟩, .ok ())
  else (self, .error .EigenAssert)

/-- Eigen: `VectorType(self.segment(start, n))`, a new vector holding the segment. -/
def VectorType.segment {α : Type} (self : VectorType α) (start n : Int) :
    Except PyErr (VectorType α) :=
  if 0 ≤ start ∧ 0 ≤ n ∧ start + n ≤ self.rows then
    .ok ⟨n.toNat, fun k => self.coeff (start + k)⟩
  else .error .EigenAssert

/-- Eigen: `self.block(r, c, nr, nc) = mat`.  The block must lie inside `self` and the
extents of the two sides must agree; the coefficients of `mat` are then copied. -/
def MatrixType.assignBlock {α : Type} (self : MatrixType α) (r c nr nc : Int)
    (mat : MatrixType α) : MatrixType α × Except PyErr Unit :=
  if 0 ≤ r ∧ 0 ≤ nr ∧ r + nr ≤ self.rows ∧ 0 ≤ c ∧ 0 ≤ nc ∧ c + nc ≤ self.cols
      ∧ (mat.rows : Int) = nr ∧ (mat.cols : Int) = nc then
    (⟨self.rows, self.cols, fun i j =>
        if r ≤ i ∧ i < r + nr ∧ c ≤ j ∧ j < c + nc then mat.coeff (i - r) (j - c)
        else self.coeff i j⟩, .ok ())
  else (self, .error .EigenAssert)

/-- Eigen: `MatrixType(self.block(r, c, nr, nc))`, a new matrix holding the block. -/
def MatrixType.block {α : Type} (self : MatrixType α) (r c nr nc : Int) :
    Except PyErr (MatrixType α) :=
  if 0 ≤ r ∧ 0 ≤ nr ∧ r + nr ≤ self.rows ∧ 0 ≤ c ∧ 0 ≤ nc ∧ c + nc ≤ self.cols then
    .ok ⟨nr.toNat, nc.toNat, fun i j => self.coeff (r + i) (c + j)⟩
  else .error .EigenAssert

/-- The loop `for (i = lo; i < hi; ++i) body(i)` run for `n` more iterations on the
state `s`; an iteration that throws ends the loop with the state reached so far. -/
def forLoopFrom {σ : Type} (body : Int → σ → σ × Except PyErr Unit) :
    Nat → Int → σ → σ × Except PyErr Unit
  | 0, _, s => (s, .ok ())
  | n + 1, i, s =>
    match body i s with
    | (s', .ok _) => forLoopFrom body n (i + 1) s'
    | (s', .error e) => (s', .error e)

/-- The loop `for (i = lo; i < hi; ++i) body(i)`: it runs `hi - lo` iterations when
`lo < hi` and none otherwise (the counter is taken not to overflow on its way to `hi`,
which no extent of a matrix held in memory makes it do). -/
def forLoop {σ : Type} (lo hi : Int) (body : Int → σ → σ × Except PyErr Unit) (s : σ) :
    σ × Except PyErr Unit :=
  forLoopFrom body (hi - lo).toNat lo s

/-- A value handed back to Python as a `py::object`. -/
inductive PyObject (α : Type) where
  | scalar (x : α)
  | vector (v : VectorType α)
  | matrix (m : MatrixType α)
  | other

/-- The conversion `py::extract<Scalar>`: it succeeds on a scalar of the right type
only (`check()` is `isSome`). -/
def extractScalar {α : Type} : PyObject α → Option α
  | .scalar x => some x
  | _ => none

/-- A one-dimensional `py::numeric::array`, as the list of its items. -/
abbrev NumericArray (α : Type) := List (PyObject α)

/-- The Python item access `array[i]` with a non-negative index: the item, or the
`IndexError` of the array when `i` is not below its length. -/
def NumericArray.getitem {α : Type} (array : NumericArray α) (i : Int) :
    Except PyErr (PyObject α) :=
  match array.get? i.toNat with
  | some o => .ok o
  | none => .error (.IndexError "index out of bounds")

/-- A `py::numeric::array` as the matrix wrapper uses it: its shape, and what the
expression `py::extract<Scalar>(array(i, j))` evaluates to (a scalar, or a throw). -/
structure NumericArray2 (α : Type) where
  shape : Nat × Nat
  call : Int → Int → Except PyErr α

namespace WrapperEigenVector

/-- The function `WrapperEigenVector::get_slice_data`: the pair `(start, stop)` it
leaves in its reference arguments, or the error it throws. -/
def get_slice_data {α : Type} (self : VectorType α) (slice : PySlice) :
    Except PyErr (Int × Int) :=
  let start : Int := 0
  let stop : Int := self.rows
  let start : Int := match slice.start with
    | none => start
    | some s => s
  let stop : Int := match slice.stop with
    | none => stop
    | some s => s
  if start < 0 ∨ stop < start ∨ stop > self.rows then
    IndexError "slice index out of range"
  else .ok (start, stop)

/-- The function `WrapperEigenVector::set_item`: `self[i] = scalar`. -/
def set_item {α : Type} (self : VectorType α) (i : Int) (scalar : α) :
    VectorType α × Except PyErr Unit :=
  self.write i scalar

/-- The function `WrapperEigenVector::set_slice_with_scalar`. -/
def set_slice_with_scalar {α : Type} (self : VectorType α) (slice : PySlice) (scalar : α) :
    VectorType α × Except PyErr Unit :=
  match get_slice_data self slice with
  | .error e => (self, .error e)
  | .ok (start, stop) =>
    forLoop (toInt start) stop (fun i s => s.write i scalar) self

/-- The function `WrapperEigenVector::set_slice_with_eigen_vector`. -/
def set_slice_with_eigen_vector {α : Type} (self : VectorType α) (slice : PySlice)
    (vec : VectorType α) : VectorType α × Except PyErr Unit :=
  match get_slice_data self slice with
  | .error e => (self, .error e)
  | .ok (start, stop) =>
    let rows : Int := stop - start
    if (vec.rows : Int) ≠ rows then
      (self, IndexError "mismatch number of rows")
    else
      self.assignSegment start rows vec

/-- The function `WrapperEigenVector::set_slice_with_array`. -/
def set_slice_with_array {α : Type} (self : VectorType α) (slice : PySlice)
    (array : NumericArray α) : VectorType α × Except PyErr Unit :=
  match get_slice_data self slice with
  | .error e => (self, .error e)
  | .ok (start, stop) =>
    forLoop (toUnsigned start) stop (fun i s =>
      match array.getitem i with
      | .error e => (s, .error e)
      | .ok item =>
        match extractScalar item with
        | none => (s, .error .ErrorAlreadySet)
        | some x => s.write i x) self

/-- The function `WrapperEigenVector::set_slice_with_sequence`: the sequence is turned
into a numeric array holding the same items. -/
def set_slice_with_sequence {α : Type} (self : VectorType α) (slice : PySlice)
    (seq : List (PyObject α)) : VectorType α × Except PyErr Unit :=
  set_slice_with_array self slice seq

/-- The function `WrapperEigenVector::get_slice`. -/
def get_slice {α : Type} (self : VectorType α) (slice : PySlice) :
    VectorType α × Except PyErr (PyObject α) :=
  match get_slice_data self slice with
  | .error e => (self, .error e)
  | .ok (start, stop) =>
    let rows : Int := stop - start
    match self.segment start rows with
    | .error e => (self, .error e)
    | .ok v => (self, .ok (.vector v))

end WrapperEigenVector

namespace WrapperEigenMatrix

/-- The function `WrapperEigenMatrix::get_slice_data` (its argument `self` is unused):
the pair `(start, stop)` it leaves in its reference arguments, or the error it throws. -/
def get_slice_data (arg : PyIndex) (max : Int) : Except PyErr (Int × Int) :=
  match arg with
  | .int k =>
    let start : Int := k
    let stop : Int := wrapLong (start + 1)
    if start < 0 ∨ stop < start ∨ stop > max then
      IndexError "slice index out of range"
    else .ok (start, stop)
  | .slice slice =>
    if slice.step.isSome then SliceStepError
    else
      let start : Int := 0
      let stop : Int := max
      let start : Int := match slice.start with
        | none => start
        | some s => s
      let stop : Int := match slice.stop with
        | none => stop
        | some s => s
      if start < 0 ∨ stop < start ∨ stop > max then
        IndexError "slice index out of range"
      else .ok (start, stop)

/-- The function `WrapperEigenMatrix::set_item`. -/
def set_item {α : Type} (self : MatrixType α) (tuple : PyIndex × PyIndex) (scalar : α) :
    MatrixType α × Except PyErr Unit :=
  match get_slice_data tuple.1 self.rows with
  | .error e => (self, .error e)
  | .ok (row_start, row_stop) =>
    match get_slice_data tuple.2 self.cols with
    | .error e => (self, .error e)
    | .ok (col_start, col_stop) =>
      if row_stop - row_start = 1 ∧ col_stop - row_start = 1 then
        self.write row_start col_start scalar
      else
        forLoop (toInt row_start) row_stop (fun i s =>
          forLoop (toInt col_start) col_stop (fun j t => t.write i j scalar) s) self

/-- The function `WrapperEigenMatrix::get_item`. -/
def get_item {α : Type} (self : MatrixType α) (tuple : PyIndex × PyIndex) :
    MatrixType α × Except PyErr (PyObject α) :=
  match get_slice_data tuple.1 self.rows with
  | .error e => (self, .error e)
  | .ok (row_start, row_stop) =>
    match get_slice_data tuple.2 self.cols with
    | .error e => (self, .error e)
    | .ok (col_start, col_stop) =>
      let row_size : Int := row_stop - row_start
      let col_size : Int := col_stop - col_start
      if row_size = 1 ∧ col_size = 1 then
        match self.read row_start col_start with
        | .error e => (self, .error e)
        | .ok x => (self, .ok (.scalar x))
      else
        match self.block row_start col_start row_size col_size with
        | .error e => (self, .error e)
        | .ok b => (self, .ok (.matrix b))

/-- The function `WrapperEigenMatrix::set_slice_with_eigen_matrix`. -/
def set_slice_with_eigen_matrix {α : Type} (self : MatrixType α) (tuple : PyIndex × PyIndex)
    (mat : MatrixType α) : MatrixType α × Except PyErr Unit :=
  match get_slice_data tuple.1 self.rows with
  | .error e => (self, .error e)
  | .ok (row_start, _row_stop) =>
    match get_slice_data tuple.2 self.cols with
    | .error e => (self, .error e)
    | .ok (col_start, _col_stop) =>
      self.assignBlock row_start col_start mat.rows mat.cols mat

/-- The function `WrapperEigenMatrix::set_slice_with_array`. -/
def set_slice_with_array {α : Type} (self : MatrixType α) (tuple : PyIndex × PyIndex)
    (array : NumericArray2 α) : MatrixType α × Except PyErr Unit :=
  match get_slice_data tuple.1 self.rows with
  | .error e => (self, .error e)
  | .ok (row_start, row_stop) =>
    match get_slice_data tuple.2 self.cols with
    | .error e => (self, .error e)
    | .ok (col_start, col_stop) =>
      let rows : Int := row_stop - row_start
      let cols : Int := col_stop - col_start
      forLoop (toInt row_start) rows (fun i s =>
        forLoop (toInt col_start) cols (fun j t =>
          match array.call i j with
          | .error e => (t, .error e)
          | .ok x => t.write i j x) s) self

/-- The function `WrapperEigenMatrix::set_slice_with_sequence`: the sequence is turned
into a numeric array holding the same items. -/
def set_slice_with_sequence {α : Type} (self : MatrixType α) (tuple : PyIndex × PyIndex)
    (seq : NumericArray2 α) : MatrixType α × Except PyErr Unit :=
  set_slice_with_array self tuple seq

end WrapperEigenMatrix

/-- The first index a selection denotes: `k` for the integer `k`, and for a slice its
start, 0 when omitted. -/
def PyIndex.start : PyIndex → Int
  | .int k => k
  | .slice s => s.start.getD 0

/-- The index at which a selection ends: `k + 1` for the integer `k`, and for a slice
its stop, the extent `max` when omitted. -/
def PyIndex.stop (max : Int) : PyIndex → Int
  | .int k => k + 1
  | .slice s => s.stop.getD max

/-- A selection without a step: an integer, or a slice whose step is `None`. -/
def PyIndex.stepless : PyIndex → Prop
  | .int _ => True
  | .slice s => s.step = none

/-- A selection whose integer, if it is one, is a value of `long`. -/
def PyIndex.fitsLong : PyIndex → Prop
  | .int k => isLong k
  | .slice _ => True

/-! ### The equilibrium result and the solver that produces it

`EquilibriumResult` and `EquilibriumStatistics` are translated from
`Reaktor/Equilibrium/EquilibriumResult.hpp`.  The solver classes are bound to Python in
`PyReaktor/Equilibrium/PyEquilibriumSolver.cpp`, but their code is not part of the
sources at hand; what follows them is marked as modelled from the specification.
Scalars are exact rationals. -/

/-- The type `Vector` of `Reaktor/Common/Matrix.hpp`, a dense vector of scalars. -/
abbrev Vector := VectorType ℚ

/-- The type `Matrix` of `Reaktor/Common/Matrix.hpp`, a dense matrix of scalars. -/
abbrev Matrix := MatrixType ℚ

/-- A default-constructed vector: no rows. -/
def VectorType.empty : VectorType ℚ := ⟨0, fun _ => 0⟩

/-- A default-constructed matrix: no rows and no columns. -/
def MatrixType.empty : MatrixType ℚ := ⟨0, 0, fun _ _ => 0⟩

/-- The sum `f 0 + f 1 + ... + f (n - 1)`. -/
def sumRange (n : Nat) (f : Int → ℚ) : ℚ :=
  ((List.range n).map (fun (k : Nat) => f (k : Int))).sum

/-- The product `A x` of a matrix and a vector. -/
def MatrixType.mulVec (A : MatrixType ℚ) (x : VectorType ℚ) : VectorType ℚ :=
  ⟨A.rows, fun i => sumRange A.cols (fun j => A.coeff i j * x.coeff j)⟩

/-- The product `Aᵗ y` of the transpose of a matrix and a vector. -/
def MatrixType.trMulVec (A : MatrixType ℚ) (y : VectorType ℚ) : VectorType ℚ :=
  ⟨A.cols, fun j => sumRange A.rows (fun i => A.coeff i j * y.coeff i)⟩

/-- The matrix `A` with one more row appended below. -/
def MatrixType.appendRow (A : MatrixType ℚ) (row : VectorType ℚ) : MatrixType ℚ :=
  ⟨A.rows + 1, A.cols, fun i j => if i = A.rows then row.coeff j else A.coeff i j⟩

/-- The vector `v` with one more entry appended at the end. -/
def VectorType.appendEntry (v : VectorType ℚ) (x : ℚ) : VectorType ℚ :=
  ⟨v.rows + 1, fun i => if i = v.rows then x else v.coeff i⟩

/-- The greatest absolute value of the entries of a vector, 0 for an empty one. -/
def VectorType.normInf (v : VectorType ℚ) : ℚ :=
  (List.range v.rows).foldl (fun acc (k : Nat) => max acc |v.coeff (k : Int)|) 0

/-- Modelled from the spec: the type `OptimumStatistics` of the absent header
`Reaktor/Optimization/OptimumResult.hpp`; spec section 3 gives it a convergence flag, an
iteration count and the final residual norms (timing is left out); the flag
`singular` is the signal of section 4.4 for a singular KKT matrix at the reported
iterate. -/
structure OptimumStatistics where
  converged : Bool
  iterations : Nat
  primalFeasibility : ℚ
  dualFeasibility : ℚ
  complementarityGap : ℚ
  singular : Bool

/-- Modelled from the spec: the type `OptimumResult` of the absent header
`Reaktor/Optimization/OptimumResult.hpp`; spec sections 3 and 4.1 give it the solution
`x`, the multipliers `y` of the equality constraints, the bound multipliers `z` and
the statistics; section 9 adds the handle `kkt` of the retained factorization of the
KKT matrix, which maps a right-hand side to the solution of the KKT system. -/
structure OptimumResult where
  x : Vector
  y : Vector
  z : Vector
  kkt : Vector → Vector
  statistics : OptimumStatistics

/-- The type `EquilibriumStatistics`: an `OptimumStatistics` with nothing added. -/
structure EquilibriumStatistics extends OptimumStatistics

/-- The constructor `EquilibriumStatistics(const OptimumStatistics& other)`. -/
def EquilibriumStatistics.ofOptimum (other : OptimumStatistics) : EquilibriumStatistics :=
  ⟨other⟩

/-- The type `EquilibriumResult`. -/
structure EquilibriumResult where
  n : Vector
  dndt : Vector
  dndp : Vector
  dndb : Matrix
  optimum : OptimumResult
  statistics : EquilibriumStatistics

/-- Modelled from the spec: the tuning options of the Optimum Solver (spec section 6). -/
structure OptimumOptions where
  maxIterations : Nat
  tolerance : ℚ
  initialBarrierParameter : ℚ

/-- Modelled from the spec: the flags `compute.dndt`, `compute.dndp` and `compute.dndb`
(spec section 6). -/
structure ComputeOptions where
  dndt : Bool
  dndp : Bool
  dndb : Bool

/-- Modelled from the spec: the type `EquilibriumOptions` of the absent header
`Reaktor/Equilibrium/EquilibriumOptions.hpp` (spec section 6). -/
structure EquilibriumOptions where
  compute : ComputeOptions
  optimum : OptimumOptions

/-- Modelled from the spec: the chemical system collaborator (spec section 6), which
exposes the formula matrix (elements by species) and the thermodynamic model: the
chemical potentials at `(T, P, n)` and their derivatives with respect to `n`, `T`
and `P`. -/
structure ChemicalSystem where
  formulaMatrix : Matrix
  potentials : ℚ → ℚ → Vector → Vector
  potentialsDn : ℚ → ℚ → Vector → Matrix
  potentialsDT : ℚ → ℚ → Vector → Vector
  potentialsDP : ℚ → ℚ → Vector → Vector

/-- Modelled from the spec: the type `EquilibriumProblem` of the absent header
`Reaktor/Equilibrium/EquilibriumProblem.hpp` (spec section 3): the element amounts `b`,
temperature, pressure and the added linear constraints, each a row and a value. -/
structure EquilibriumProblem where
  system : ChemicalSystem
  b : Vector
  T : ℚ
  P : ℚ
  constraints : List (Vector × ℚ)

/-- Modelled from the spec: the type `EquilibriumState` of the absent header
`Reaktor/Equilibrium/EquilibriumState.hpp` (spec section 4.3): the current `n`, `T`, `P`. -/
structure EquilibriumState where
  n : Vector
  T : ℚ
  P : ℚ

/-- Modelled from the spec: the Optimum Problem of spec section 3, `min f(x)` subject to
`A x = b` and `x ≥ lower`. -/
structure OptimumProblem where
  objective : Vector → ℚ
  gradient : Vector → Vector
  hessian : Vector → Matrix
  A : Matrix
  b : Vector
  lower : Vector

/-- Modelled from the spec: an iterate of the Optimum Solver (spec section 4.1): the
primal variables, the two families of multipliers and the barrier parameter. -/
structure OptimumState where
  x : Vector
  y : Vector
  z : Vector
  mu : ℚ

/-- Modelled from the spec: the numerical parts of the absent solver that the
specification leaves open (section 9).  `newtonStep` is one Newton iteration (KKT
solve, line search and barrier update), with no next iterate when the KKT system
cannot be solved (rank-deficient constraints, section 4.1); `multipliers` gives the
multipliers of the first iterate; `kktSolve` is the factorization of the KKT matrix at
an iterate, as the map from a right-hand side to the solution, and `kktSingular` tells
whether that matrix is singular. -/
structure Engine where
  newtonStep : OptimumProblem → OptimumOptions → OptimumState → Option OptimumState
  multipliers : OptimumProblem → Vector → Vector × Vector
  kktSolve : OptimumProblem → OptimumState → Vector → Vector
  kktSingular : OptimumProblem → OptimumState → Bool

/-- Modelled from the spec: the faults of section 7; a contract violation ends the
call. -/
inductive Fault where
  | InvalidProblemSpecification
  deriving DecidableEq, Repr

/-- Modelled from the spec: the constraint matrix of the translated problem (section
4.2): the formula matrix, then one row for each added constraint. -/
def EquilibriumProblem.constraintMatrix (problem : EquilibriumProblem) : Matrix :=
  problem.constraints.foldl (fun A c => A.appendRow c.1) problem.system.formulaMatrix

/-- Modelled from the spec: the right-hand side of the translated problem (section
4.2): the element amounts, then the value of each added constraint. -/
def EquilibriumProblem.constraintValues (problem : EquilibriumProblem) : Vector :=
  problem.constraints.foldl (fun v c => v.appendEntry c.2) problem.b

/-- Modelled from the spec: Equilibrium Problem translation (section 4.2).  The
objective is the Gibbs energy `G(n) = Σ n_i μ_i(n, T, P)`, its gradient the chemical
potentials, its Hessian their derivatives; the constraints are the mass balance and
the added constraints; the bounds are `n ≥ 0`. -/
def EquilibriumProblem.translate (problem : EquilibriumProblem) : OptimumProblem where
  objective := fun n =>
    sumRange n.rows (fun i => n.coeff i * (problem.system.potentials problem.T problem.P n).coeff i)
  gradient := problem.system.potentials problem.T problem.P
  hessian := problem.system.potentialsDn problem.T problem.P
  A := problem.constraintMatrix
  b := problem.constraintValues
  lower := ⟨problem.system.formulaMatrix.cols, fun _ => 0⟩

/-- Modelled from the spec: the primal feasibility residual `A x - b` of the KKT system
(section 4.1). -/
def OptimumProblem.primalResidual (problem : OptimumProblem) (s : OptimumState) : Vector :=
  ⟨problem.A.rows, fun i => (problem.A.mulVec s.x).coeff i - problem.b.coeff i⟩

/-- Modelled from the spec: the dual feasibility residual `∇f + Aᵗ y - z` of the KKT
system (section 4.1). -/
def OptimumProblem.dualResidual (problem : OptimumProblem) (s : OptimumState) : Vector :=
  ⟨s.x.rows, fun i =>
    (problem.gradient s.x).coeff i + (problem.A.trMulVec s.y).coeff i - s.z.coeff i⟩

/-- Modelled from the spec: the complementarity residual `X Z e - μ e` of the KKT
system (section 4.1). -/
def OptimumProblem.complementarityResidual (_problem : OptimumProblem) (s : OptimumState) :
    Vector :=
  ⟨s.x.rows, fun i => s.x.coeff i * s.z.coeff i - s.mu⟩

/-- Modelled from the spec: the violation of the lower bounds `x ≥ lower` (sections 3
and 4.1), entry by entry, 0 where the bound is kept. -/
def OptimumProblem.boundResidual (problem : OptimumProblem) (s : OptimumState) : Vector :=
  ⟨problem.lower.rows, fun i => max 0 (problem.lower.coeff i - s.x.coeff i)⟩

/-- Modelled from the spec: the primal feasibility norm (section 3): how far the
iterate is from satisfying the constraints `A x = b` and the bounds `x ≥ lower`. -/
def OptimumProblem.primalFeasibility (problem : OptimumProblem) (s : OptimumState) : ℚ :=
  max (problem.primalResidual s).normInf (problem.boundResidual s).normInf

/-- Modelled from the spec: the convergence test of section 4.1, all residuals below
the configured tolerance. -/
def OptimumProblem.residualsBelow (problem : OptimumProblem) (options : OptimumOptions)
    (s : OptimumState) : Bool :=
  decide (problem.primalFeasibility s < options.tolerance)
    && decide ((problem.dualResidual s).normInf < options.tolerance)
    && decide ((problem.complementarityResidual s).normInf < options.tolerance)

/-- Modelled from the spec: the measure by which an iterate is the best one (section
4.1), the greatest of its three residual norms. -/
def OptimumProblem.merit (problem : OptimumProblem) (s : OptimumState) : ℚ :=
  max (max (problem.primalFeasibility s) (problem.dualResidual s).normInf)
    (problem.complementarityResidual s).normInf

/-- Modelled from the spec: the better of the best iterate so far and the current one. -/
def OptimumProblem.better (problem : OptimumProblem) (best cur : OptimumState) : OptimumState :=
  if problem.merit cur < problem.merit best then cur else best

/-- What the iteration of the Optimum Solver ends with: the iterate it reports, the
convergence flag and the number of iterations made. -/
structure OptimumOutcome where
  state : OptimumState
  converged : Bool
  iterations : Nat

/-- Modelled from the spec: the iteration of the Optimum Solver (section 4.1) with
`fuel` iterations left of the budget, `iters` made, `best` the best iterate seen and
`cur` the current one.  It stops with the flag set as soon as all residuals of the
current iterate are below the tolerance, and with the flag cleared and the best
iterate when the budget is exhausted or the KKT system cannot be solved. -/
def OptimumSolver.iterate (engine : Engine) (problem : OptimumProblem)
    (options : OptimumOptions) : Nat → Nat → OptimumState → OptimumState → OptimumOutcome
  | 0, iters, best, cur =>
    if problem.residualsBelow options cur then ⟨cur, true, iters⟩
    else ⟨problem.better best cur, false, iters⟩
  | fuel + 1, iters, best, cur =>
    if problem.residualsBelow options cur then ⟨cur, true, iters⟩
    else
      match engine.newtonStep problem options cur with
      | none => ⟨problem.better best cur, false, iters⟩
      | some next =>
        OptimumSolver.iterate engine problem options fuel (iters + 1)
          (problem.better best cur) next

/-- Modelled from the spec: the first iterate, seeded with the guess `x0` and the
initial barrier parameter. -/
def OptimumSolver.seed (engine : Engine) (problem : OptimumProblem) (x0 : Vector)
    (options : OptimumOptions) : OptimumState :=
  ⟨x0, (engine.multipliers problem x0).1, (engine.multipliers problem x0).2,
    options.initialBarrierParameter⟩

/-- Modelled from the spec: the Optimum Solver (section 4.1), from a problem, an
initial guess and options to an Optimum Result with its statistics; the factorization
of the KKT matrix at the reported iterate is retained in the result. -/
def OptimumSolver.solve (engine : Engine) (problem : OptimumProblem) (x0 : Vector)
    (options : OptimumOptions) : OptimumResult :=
  let s0 := OptimumSolver.seed engine problem x0 options
  let out := OptimumSolver.iterate engine problem options options.maxIterations 0 s0 s0
  { x := out.state.x
    y := out.state.y
    z := out.state.z
    kkt := engine.kktSolve problem out.state
    statistics :=
      { converged := out.converged
        iterations := out.iterations
        primalFeasibility := problem.primalFeasibility out.state
        dualFeasibility := (problem.dualResidual out.state).normInf
        complementarityGap := (problem.complementarityResidual out.state).normInf
        singular := engine.kktSingular problem out.state } }

/-- Modelled from the spec: the dimensions of a problem and a state fit together
(section 7, InvalidProblemSpecification): one column of the formula matrix and one
entry of every added constraint row for each species, one entry of `b` for each
element. -/
def EquilibriumProblem.consistent (problem : EquilibriumProblem) (state : EquilibriumState) :
    Bool :=
  decide (problem.system.formulaMatrix.cols = state.n.rows)
    && decide (problem.b.rows = problem.system.formulaMatrix.rows)
    && problem.constraints.all (fun c => decide (c.1.rows = problem.system.formulaMatrix.cols))

namespace Sensitivity

/-- Modelled from the spec: the number of entries of a right-hand side of the KKT
system of section 4.1, one for each species, each constraint and each bound. -/
def kktRows (problem : EquilibriumProblem) : Nat :=
  problem.system.formulaMatrix.cols + problem.constraintMatrix.rows
    + problem.system.formulaMatrix.cols

/-- Modelled from the spec: the right-hand side for the direction `T` (section 4.4),
the derivative of the objective gradient with respect to `T` in the stationarity
rows. -/
def rhsT (problem : EquilibriumProblem) (n : Vector) : Vector :=
  ⟨kktRows problem, fun i =>
    if i < problem.system.formulaMatrix.cols then
      -(problem.system.potentialsDT problem.T problem.P n).coeff i
    else 0⟩

/-- Modelled from the spec: the right-hand side for the direction `P` (section 4.4). -/
def rhsP (problem : EquilibriumProblem) (n : Vector) : Vector :=
  ⟨kktRows problem, fun i =>
    if i < problem.system.formulaMatrix.cols then
      -(problem.system.potentialsDP problem.T problem.P n).coeff i
    else 0⟩

/-- Modelled from the spec: the right-hand side for the direction `b_j` (section 4.4),
the unit vector of the mass balance row `j`. -/
def rhsB (problem : EquilibriumProblem) (j : Int) : Vector :=
  ⟨kktRows problem, fun i => if i = problem.system.formulaMatrix.cols + j then 1 else 0⟩

/-- Modelled from the spec: the derivative `∂n/∂T` (sections 3 and 4.4), one entry for
each species, read off the solution of the retained KKT system. -/
def dndt (problem : EquilibriumProblem) (optimum : OptimumResult) : Vector :=
  ⟨problem.system.formulaMatrix.cols, fun i =>
    (optimum.kkt (rhsT problem optimum.x)).coeff i⟩

/-- Modelled from the spec: the derivative `∂n/∂P` (sections 3 and 4.4), one entry for
each species. -/
def dndp (problem : EquilibriumProblem) (optimum : OptimumResult) : Vector :=
  ⟨problem.system.formulaMatrix.cols, fun i =>
    (optimum.kkt (rhsP problem optimum.x)).coeff i⟩

/-- Modelled from the spec: the derivative `∂n/∂b` (sections 3 and 4.4), species by
elements, one linear solve for each element. -/
def dndb (problem : EquilibriumProblem) (optimum : OptimumResult) : Matrix :=
  ⟨problem.system.formulaMatrix.cols, problem.system.formulaMatrix.rows, fun i j =>
    (optimum.kkt (rhsB problem j)).coeff i⟩

end Sensitivity

namespace EquilibriumSolver

/-- Modelled from the spec: the operation `EquilibriumSolver::solve(problem, state,
options)` (section 4.3), whose code is absent.  A problem whose dimensions do not fit
is a fault.  Otherwise the problem is translated, the Optimum Solver is run from the
amounts of `state`, the amounts found are written back into `state`, and each
derivative is calculated by the Sensitivity module when its flag is set, as the header
documents for the three fields, and left empty when it is not; a singular KKT system
is signalled by the flag `singular` of the statistics.  The result is the state after
the call and the Equilibrium Result. -/
def solve (engine : Engine) (problem : EquilibriumProblem) (state : EquilibriumState)
    (options : EquilibriumOptions) : Except Fault (EquilibriumState × EquilibriumResult) :=
  if problem.consistent state then
    let optimum := OptimumSolver.solve engine problem.translate state.n options.optimum
    .ok ({ state with n := optimum.x },
      { n := optimum.x
        dndt := if options.compute.dndt then Sensitivity.dndt problem optimum else VectorType.empty
        dndp := if options.compute.dndp then Sensitivity.dndp problem optimum else VectorType.empty
        dndb := if options.compute.dndb then Sensitivity.dndb problem optimum else MatrixType.empty
        optimum := optimum
        statistics := EquilibriumStatistics.ofOptimum optimum.statistics })
  else .error .InvalidProblemSpecification

end EquilibriumSolver

/-! ### A small system for concrete solves -/

/-- A system of one element and two species A and B with the mass balance
`n_A + 2 n_B = b`, constant (zero) chemical potentials and hence a zero Hessian. -/
def oneElementSystem : ChemicalSystem where
  formulaMatrix := MatrixType.ofRows 2 [[1, 2]]
  potentials := fun _ _ n => ⟨n.rows, fun _ => 0⟩
  potentialsDn := fun _ _ n => ⟨n.rows, n.rows, fun _ _ => 0⟩
  potentialsDT := fun _ _ n => ⟨n.rows, fun _ => 0⟩
  potentialsDP := fun _ _ n => ⟨n.rows, fun _ => 0⟩

/-- An engine for `oneElementSystem`: its iteration halves the amounts, its first
multipliers are zero, and its factorization hands the right-hand side back and reports
the KKT matrix singular (the Hessian of the system is zero). -/
def halvingEngine : Engine where
  newtonStep := fun _ _ s => some { s with x := ⟨s.x.rows, fun i => s.x.coeff i / 2⟩ }
  multipliers := fun problem x => (⟨problem.A.rows, fun _ => 0⟩, ⟨x.rows, fun _ => 0⟩)
  kktSolve := fun _ _ rhs => rhs
  kktSingular := fun _ _ => true

/-- The feasible problem `n_A + 2 n_B = 2` at 298 K and 1 bar. -/
def feasibleProblem : EquilibriumProblem := ⟨oneElementSystem, VectorType.ofList [2], 298, 1, []⟩

/-- A state with `n_A = 0` and `n_B = 1`. -/
def balancedState : EquilibriumState := ⟨VectorType.ofList [0, 1], 298, 1⟩

/-- A state with `n_A = 0` and `n_B = 2`, one halving away from `balancedState`. -/
def doubledState : EquilibriumState := ⟨VectorType.ofList [0, 2], 298, 1⟩

/-- Options asking for all three derivatives, with a budget of 3 iterations, the
tolerance 1/1000 and a zero initial barrier parameter. -/
def allDerivatives : EquilibriumOptions := ⟨⟨true, true, true⟩, ⟨3, 1 / 1000, 0⟩⟩

/-! ## Theorems -/

/-- On values of `long` other than the greatest, `wrapLong` leaves the successor alone. -/
theorem wrapLong_succ (k : Int) (h : isLong k) (hk : k ≠ LONG_MAX) : wrapLong (k + 1) = k + 1 := by
  unfold isLong LONG_MIN LONG_MAX at *
  unfold wrapLong
  omega

/-- The successor of the greatest `long` wraps to the least. -/
theorem wrapLong_succ_max : wrapLong (LONG_MAX + 1) = LONG_MIN := by
  decide

/-- Closed form of the vector's `get_slice_data`. -/
theorem WrapperEigenVector.vector_get_slice_data_eq {α : Type} (self : VectorType α) (slice : PySlice) :
    WrapperEigenVector.get_slice_data self slice =
      if slice.start.getD 0 < 0 ∨ slice.stop.getD self.rows < slice.start.getD 0
          ∨ slice.stop.getD self.rows > self.rows then
        .error (.IndexError "slice index out of range")
      else .ok (slice.start.getD 0, slice.stop.getD self.rows) := by
  unfold WrapperEigenVector.get_slice_data IndexError
  cases slice.start <;> cases slice.stop <;> rfl

/-- Closed form of the matrix's `get_slice_data` on a step-less selection. -/
theorem WrapperEigenMatrix.matrix_get_slice_data_eq (arg : PyIndex) (max : Int)
    (hmax : 0 ≤ max ∧ max ≤ LONG_MAX) (hstep : arg.stepless) (hlong : arg.fitsLong) :
    WrapperEigenMatrix.get_slice_data arg max =
      if arg.start < 0 ∨ arg.stop max < arg.start ∨ arg.stop max > max then
        .error (.IndexError "slice index out of range")
      else .ok (arg.start, arg.stop max) := by
  cases arg with
  | int k =>
    simp only [PyIndex.fitsLong] at hlong
    simp only [WrapperEigenMatrix.get_slice_data, IndexError, PyIndex.start, PyIndex.stop]
    by_cases hk : k = LONG_MAX
    · subst hk
      rw [wrapLong_succ_max]
      have h1 : (LONG_MAX < 0 ∨ LONG_MIN < LONG_MAX ∨ LONG_MIN > max) := by
        right; left; decide
      have h2 : (LONG_MAX < 0 ∨ LONG_MAX + 1 < LONG_MAX ∨ LONG_MAX + 1 > max) := by
        right; right; omega
      rw [if_pos h1, if_pos h2]
    · rw [wrapLong_succ k hlong hk]
  | slice s =>
    simp only [PyIndex.stepless] at hstep
    simp only [WrapperEigenMatrix.get_slice_data, IndexError, PyIndex.start, PyIndex.stop, hstep]
    cases s.start <;> cases s.stop <;> rfl

/-- A pair returned by the vector's `get_slice_data` lies inside the vector. -/
theorem WrapperEigenVector.vector_get_slice_data_ok {α : Type} (self : VectorType α) (slice : PySlice)
    (a b : Int) (h : WrapperEigenVector.get_slice_data self slice = .ok (a, b)) :
    0 ≤ a ∧ a ≤ b ∧ b ≤ self.rows := by
  rw [WrapperEigenVector.vector_get_slice_data_eq] at h
  split_ifs at h with hc
  simp only [Except.ok.injEq, Prod.mk.injEq] at h
  obtain ⟨rfl, rfl⟩ := h
  simp only [not_or, not_lt, gt_iff_lt] at hc
  exact ⟨hc.1, hc.2.1, hc.2.2⟩

/-- A pair returned by the matrix's `get_slice_data` lies inside the extent. -/
theorem WrapperEigenMatrix.matrix_get_slice_data_ok (arg : PyIndex) (max a b : Int)
    (h : WrapperEigenMatrix.get_slice_data arg max = .ok (a, b)) :
    0 ≤ a ∧ a ≤ b ∧ b ≤ max := by
  cases arg with
  | int k =>
    simp only [WrapperEigenMatrix.get_slice_data, IndexError] at h
    split_ifs at h with hc
    simp only [Except.ok.injEq, Prod.mk.injEq] at h
    obtain ⟨rfl, rfl⟩ := h
    simp only [not_or, not_lt, gt_iff_lt] at hc
    exact ⟨hc.1, hc.2.1, hc.2.2⟩
  | slice s =>
    simp only [WrapperEigenMatrix.get_slice_data, IndexError, SliceStepError] at h
    split_ifs at h with hs hc
    simp only [Except.ok.injEq, Prod.mk.injEq] at h
    obtain ⟨rfl, rfl⟩ := h
    simp only [not_or, not_lt, gt_iff_lt] at hc
    exact ⟨hc.1, hc.2.1, hc.2.2⟩

/-- C6. Selection bounds validation: for an extent `0 ≤ max` and a step-less selection
denoting `[start, stop)` (omitted start 0, omitted stop `max`, integer `k` the range
`[k, k + 1)`), both `get_slice_data` functions raise the IndexError
"slice index out of range" exactly when `start < 0`, `stop < start` or `stop > max`;
otherwise they return `(start, stop)`, and every returned pair satisfies
`0 ≤ start ≤ stop ≤ max`.  The vector wrapper takes a slice only, and its extent is
the number of rows of the vector. -/
theorem get_slice_data_bounds {α : Type} (self : VectorType α) (slice : PySlice)
    (max : Int) (arg : PyIndex)
    (hmax : 0 ≤ max ∧ max ≤ LONG_MAX)
    (hstep : arg.stepless) (hlong : arg.fitsLong) :
    ((WrapperEigenVector.get_slice_data self slice
          = .error (.IndexError "slice index out of range") ↔
        ((PyIndex.slice slice).start < 0
          ∨ (PyIndex.slice slice).stop self.rows < (PyIndex.slice slice).start
          ∨ (PyIndex.slice slice).stop self.rows > self.rows)) ∧
      (¬ ((PyIndex.slice slice).start < 0
          ∨ (PyIndex.slice slice).stop self.rows < (PyIndex.slice slice).start
          ∨ (PyIndex.slice slice).stop self.rows > self.rows) →
        WrapperEigenVector.get_slice_data self slice
          = .ok ((PyIndex.slice slice).start, (PyIndex.slice slice).stop self.rows)) ∧
      (∀ p, WrapperEigenVector.get_slice_data self slice = .ok p →
        0 ≤ p.1 ∧ p.1 ≤ p.2 ∧ p.2 ≤ self.rows)) ∧
    ((WrapperEigenMatrix.get_slice_data arg max
          = .error (.IndexError "slice index out of range") ↔
        (arg.start < 0 ∨ arg.stop max < arg.start ∨ arg.stop max > max)) ∧
      (¬ (arg.start < 0 ∨ arg.stop max < arg.start ∨ arg.stop max > max) →
        WrapperEigenMatrix.get_slice_data arg max = .ok (arg.start, arg.stop max)) ∧
      (∀ p, WrapperEigenMatrix.get_slice_data arg max = .ok p →
        0 ≤ p.1 ∧ p.1 ≤ p.2 ∧ p.2 ≤ max)) := by
  have hv := WrapperEigenVector.vector_get_slice_data_eq self slice
  have hm := WrapperEigenMatrix.matrix_get_slice_data_eq arg max hmax hstep hlong
  have e1 : (PyIndex.slice slice).start = slice.start.getD 0 := rfl
  have e2 : (PyIndex.slice slice).stop self.rows = slice.stop.getD self.rows := rfl
  rw [e1, e2]
  refine ⟨⟨?_, ?_, ?_⟩, ⟨?_, ?_, ?_⟩⟩
  · rw [hv]; split_ifs with h <;> simp [h]
  · intro h; rw [hv, if_neg h]
  · intro p hp
    rw [hv] at hp
    split_ifs at hp with h
    cases hp
    simp only [not_or, not_lt, gt_iff_lt] at h
    exact ⟨h.1, h.2.1, h.2.2⟩
  · rw [hm]; split_ifs with h <;> simp [h]
  · intro h; rw [hm, if_neg h]
  · intro p hp
    rw [hm] at hp
    split_ifs at hp with h
    cases hp
    simp only [not_or, not_lt, gt_iff_lt] at h
    exact ⟨h.1, h.2.1, h.2.2⟩

/-- C3. Vector slice assignment from a vector: on an accepted slice `[start, stop)`,
`set_slice_with_eigen_vector` raises the IndexError "mismatch number of rows" exactly
when the length of `vec` differs from `stop - start`, and then leaves the vector
unchanged; when the lengths agree it returns normally, keeps the length, makes
`self[start + k] = vec[k]` for `0 ≤ k < stop - start` and leaves every other entry
unchanged. -/
theorem set_slice_with_eigen_vector_spec {α : Type} (self vec : VectorType α)
    (slice : PySlice) (start stop : Int)
    (h : WrapperEigenVector.get_slice_data self slice = .ok (start, stop)) :
    ((WrapperEigenVector.set_slice_with_eigen_vector self slice vec).2
          = .error (.IndexError "mismatch number of rows") ↔
        (vec.rows : Int) ≠ stop - start) ∧
      ((vec.rows : Int) ≠ stop - start →
        (WrapperEigenVector.set_slice_with_eigen_vector self slice vec).1 = self) ∧
      ((vec.rows : Int) = stop - start →
        (WrapperEigenVector.set_slice_with_eigen_vector self slice vec).2 = .ok () ∧
        (WrapperEigenVector.set_slice_with_eigen_vector self slice vec).1.rows = self.rows ∧
        (∀ k : Int, 0 ≤ k → k < stop - start →
          (WrapperEigenVector.set_slice_with_eigen_vector self slice vec).1.coeff (start + k)
            = vec.coeff k) ∧
        (∀ i : Int, i < start ∨ stop ≤ i →
          (WrapperEigenVector.set_slice_with_eigen_vector self slice vec).1.coeff i
            = self.coeff i)) := by
  obtain ⟨h0, h1, h2⟩ := WrapperEigenVector.vector_get_slice_data_ok self slice start stop h
  simp only [WrapperEigenVector.set_slice_with_eigen_vector, h, IndexError]
  by_cases hr : (vec.rows : Int) = stop - start
  · have hseg : 0 ≤ start ∧ 0 ≤ stop - start ∧ start + (stop - start) ≤ self.rows
        ∧ (vec.rows : Int) = stop - start := ⟨h0, by omega, by omega, hr⟩
    simp only [hr, ne_eq, not_true_eq_false, if_false, VectorType.assignSegment, hseg,
      and_self, if_true]
    refine ⟨by simp, by simp, fun _ => ⟨trivial, trivial, ?_, ?_⟩⟩
    · intro k hk0 hk1
      have hc : start ≤ start + k ∧ start + k < start + (stop - start) := by omega
      simp only [hc, and_self, if_true]
      congr 1
      omega
    · intro i hi
      have hc : ¬ (start ≤ i ∧ i < start + (stop - start)) := by omega
      simp only [hc, if_false]
  · simp [hr]

/-- Witness of C3: the assignment `v[1:3] = w` with `v = [1, 2, 3]` and `w = [8, 9]`. -/
theorem set_slice_with_eigen_vector_spec_witness :
    WrapperEigenVector.get_slice_data (VectorType.ofList [(1 : Int), 2, 3]) ⟨some 1, some 3, none⟩
        = .ok (1, 3) ∧
      ((VectorType.ofList [(8 : Int), 9]).rows : Int) = 3 - 1 ∧
      (WrapperEigenVector.set_slice_with_eigen_vector (VectorType.ofList [(1 : Int), 2, 3])
          ⟨some 1, some 3, none⟩ (VectorType.ofList [8, 9])).1.coeff (1 + 1) = 9 :=
  ⟨rfl, rfl,
    ((set_slice_with_eigen_vector_spec (VectorType.ofList [(1 : Int), 2, 3])
        (VectorType.ofList [8, 9]) ⟨some 1, some 3, none⟩ 1 3 rfl).2.2 rfl).2.2.1 1
      (by decide) (by decide)⟩

/-- Witness of C6: the slice `[1:]` of a vector of three rows and the row index `2`
of a matrix of three rows. -/
theorem get_slice_data_bounds_witness :
    ((0 : Int) ≤ 3 ∧ (3 : Int) ≤ LONG_MAX) ∧
      (PyIndex.int 2).stepless ∧ (PyIndex.int 2).fitsLong ∧
      WrapperEigenVector.get_slice_data (VectorType.ofList [(1 : Int), 2, 3]) ⟨some 1, none, none⟩
        = .ok (1, 3) ∧
      WrapperEigenMatrix.get_slice_data (.int 2) 3 = .ok (2, 3) :=
  ⟨by decide, trivial, ⟨by decide, by decide⟩,
    (get_slice_data_bounds (VectorType.ofList [(1 : Int), 2, 3]) ⟨some 1, none, none⟩ 3 (.int 2)
      (by decide) trivial ⟨by decide, by decide⟩).1.2.1 (by decide),
    (get_slice_data_bounds (VectorType.ofList [(1 : Int), 2, 3]) ⟨some 1, none, none⟩ 3 (.int 2)
      (by decide) trivial ⟨by decide, by decide⟩).2.2.1 (by decide)⟩

/-- C7. Matrix block access: on accepted row and column selections `get_item` leaves
the matrix unchanged; it returns the entry `self(row_start, col_start)` when the
selection is exactly 1 x 1, and otherwise a new matrix of
`row_stop - row_start` rows and `col_stop - col_start` columns whose entry `(i, j)` is
`self(row_start + i, col_start + j)`. -/
theorem get_item_spec {α : Type} (self : MatrixType α) (tuple : PyIndex × PyIndex)
    (row_start row_stop col_start col_stop : Int)
    (hr : WrapperEigenMatrix.get_slice_data tuple.1 self.rows = .ok (row_start, row_stop))
    (hc : WrapperEigenMatrix.get_slice_data tuple.2 self.cols = .ok (col_start, col_stop)) :
    (WrapperEigenMatrix.get_item self tuple).1 = self ∧
      ((row_stop - row_start = 1 ∧ col_stop - col_start = 1) →
        (WrapperEigenMatrix.get_item self tuple).2
          = .ok (.scalar (self.coeff row_start col_start))) ∧
      (¬ (row_stop - row_start = 1 ∧ col_stop - col_start = 1) →
        ∃ b : MatrixType α,
          (WrapperEigenMatrix.get_item self tuple).2 = .ok (.matrix b) ∧
          (b.rows : Int) = row_stop - row_start ∧ (b.cols : Int) = col_stop - col_start ∧
          ∀ i j : Int, 0 ≤ i → i < row_stop - row_start → 0 ≤ j → j < col_stop - col_start →
            b.coeff i j = self.coeff (row_start + i) (col_start + j)) := by
  obtain ⟨r0, r1, r2⟩ := WrapperEigenMatrix.matrix_get_slice_data_ok _ _ _ _ hr
  obtain ⟨c0, c1, c2⟩ := WrapperEigenMatrix.matrix_get_slice_data_ok _ _ _ _ hc
  simp only [WrapperEigenMatrix.get_item, hr, hc]
  by_cases h11 : row_stop - row_start = 1 ∧ col_stop - col_start = 1
  · have hin : 0 ≤ row_start ∧ row_start < self.rows ∧ 0 ≤ col_start ∧ col_start < self.cols :=
      ⟨r0, by omega, c0, by omega⟩
    simp [h11, MatrixType.read, hin]
  · have hin : 0 ≤ row_start ∧ 0 ≤ row_stop - row_start
        ∧ row_start + (row_stop - row_start) ≤ self.rows ∧ 0 ≤ col_start
        ∧ 0 ≤ col_stop - col_start ∧ col_start + (col_stop - col_start) ≤ self.cols :=
      ⟨r0, by omega, by omega, c0, by omega, by omega⟩
    simp only [h11, if_false, MatrixType.block, hin, and_self, if_true, not_false_eq_true,
      forall_true_left, true_and, false_implies]
    refine ⟨_, rfl, ?_, ?_, ?_⟩
    · exact Int.toNat_of_nonneg hin.2.1
    · exact Int.toNat_of_nonneg hin.2.2.2.2.1
    · intro i j _ _ _ _
      rfl

/-- Witness of C7: the access `m[0:2, 1]` of a 2 x 2 matrix, a 2 x 1 block. -/
theorem get_item_spec_witness :
    WrapperEigenMatrix.get_slice_data (.slice ⟨some 0, some 2, none⟩)
        (MatrixType.ofRows 2 [[(1 : Int), 2], [3, 4]]).rows = .ok (0, 2) ∧
      WrapperEigenMatrix.get_slice_data (.int 1)
        (MatrixType.ofRows 2 [[(1 : Int), 2], [3, 4]]).cols = .ok (1, 2) ∧
      (WrapperEigenMatrix.get_item (MatrixType.ofRows 2 [[(1 : Int), 2], [3, 4]])
        (.slice ⟨some 0, some 2, none⟩, .int 1)).1
        = MatrixType.ofRows 2 [[(1 : Int), 2], [3, 4]] :=
  ⟨rfl, rfl,
    (get_item_spec (MatrixType.ofRows 2 [[(1 : Int), 2], [3, 4]])
      (.slice ⟨some 0, some 2, none⟩, .int 1) 0 2 1 2 rfl rfl).1⟩

/-- C1, evaluated where the code departs from it.  The assignment `m[1, 0:2] = 7` on a
2 x 2 matrix of zeros has both selections accepted (rows `[1, 2)`, columns `[0, 2)`) and
returns normally, yet only `m(1, 0)` becomes 7: the entry `(1, 1)` of the block keeps
its 0, because the single-entry test compares `col_stop - row_start` with 1.  On a
2 x 3 matrix of zeros the assignment `m[1, 2:2] = 7`, whose block is empty, writes the
entry `(1, 2)`, which lies outside the block. -/
theorem set_item_single_entry_test_uses_row_start :
    WrapperEigenMatrix.get_slice_data (.int 1) 2 = .ok (1, 2) ∧
      WrapperEigenMatrix.get_slice_data (.slice ⟨some 0, some 2, none⟩) 2 = .ok (0, 2) ∧
      (WrapperEigenMatrix.set_item (MatrixType.ofRows 2 [[(0 : Int), 0], [0, 0]])
        (.int 1, .slice ⟨some 0, some 2, none⟩) 7).2 = .ok () ∧
      (WrapperEigenMatrix.set_item (MatrixType.ofRows 2 [[(0 : Int), 0], [0, 0]])
        (.int 1, .slice ⟨some 0, some 2, none⟩) 7).1.coeff 1 0 = 7 ∧
      (WrapperEigenMatrix.set_item (MatrixType.ofRows 2 [[(0 : Int), 0], [0, 0]])
        (.int 1, .slice ⟨some 0, some 2, none⟩) 7).1.coeff 1 1 = 0 ∧
      WrapperEigenMatrix.get_slice_data (.slice ⟨some 2, some 2, none⟩) 3 = .ok (2, 2) ∧
      (WrapperEigenMatrix.set_item (MatrixType.ofRows 3 [[(0 : Int), 0, 0], [0, 0, 0]])
        (.int 1, .slice ⟨some 2, some 2, none⟩) 7).2 = .ok () ∧
      (WrapperEigenMatrix.set_item (MatrixType.ofRows 3 [[(0 : Int), 0, 0], [0, 0, 0]])
        (.int 1, .slice ⟨some 2, some 2, none⟩) 7).1.coeff 1 2 = 7 :=
  ⟨rfl, rfl, rfl, by decide, by decide, rfl, rfl, by decide⟩

/-- C2, evaluated where the code departs from it.  The assignment `m[0:2, 0:2] = other`
on a 2 x 2 matrix of zeros, with `other` the 1 x 1 matrix holding 9, selects a 2 x 2
block; the extents differ, yet the call returns normally and `m(0, 0)` becomes 9. -/
theorem set_slice_with_eigen_matrix_has_no_extent_check :
    WrapperEigenMatrix.get_slice_data (.slice ⟨some 0, some 2, none⟩) 2 = .ok (0, 2) ∧
      (MatrixType.ofRows 1 [[(9 : Int)]]).rows = 1 ∧
      (MatrixType.ofRows 1 [[(9 : Int)]]).cols = 1 ∧
      (WrapperEigenMatrix.set_slice_with_eigen_matrix
        (MatrixType.ofRows 2 [[(0 : Int), 0], [0, 0]])
        (.slice ⟨some 0, some 2, none⟩, .slice ⟨some 0, some 2, none⟩)
        (MatrixType.ofRows 1 [[9]])).2 = .ok () ∧
      (WrapperEigenMatrix.set_slice_with_eigen_matrix
        (MatrixType.ofRows 2 [[(0 : Int), 0], [0, 0]])
        (.slice ⟨some 0, some 2, none⟩, .slice ⟨some 0, some 2, none⟩)
        (MatrixType.ofRows 1 [[9]])).1.coeff 0 0 = 9 ∧
      (MatrixType.ofRows 2 [[(0 : Int), 0], [0, 0]]).coeff 0 0 = 0 :=
  ⟨rfl, rfl, rfl, rfl, by decide, by decide⟩

/-- C4, evaluated where the code departs from it.  The assignment `v[1:3] = [7, 8]` on
the vector `[0, 0, 0]` reads the array at the index of the destination: it stores
`a[1] = 8` in `v[1]` and then fails on `a[2]`, leaving `v = [0, 8, 0]` and an error,
where `set_slice_with_eigen_vector` with the vector `[7, 8]` returns normally with
`v = [0, 7, 8]`. -/
theorem set_slice_with_array_reads_at_destination_index :
    WrapperEigenVector.get_slice_data (VectorType.ofList [(0 : Int), 0, 0])
        ⟨some 1, some 3, none⟩ = .ok (1, 3) ∧
      (∃ e, (WrapperEigenVector.set_slice_with_array (VectorType.ofList [(0 : Int), 0, 0])
        ⟨some 1, some 3, none⟩ [.scalar 7, .scalar 8]).2 = .error e) ∧
      (WrapperEigenVector.set_slice_with_array (VectorType.ofList [(0 : Int), 0, 0])
        ⟨some 1, some 3, none⟩ [.scalar 7, .scalar 8]).1.coeff 1 = 8 ∧
      (WrapperEigenVector.set_slice_with_array (VectorType.ofList [(0 : Int), 0, 0])
        ⟨some 1, some 3, none⟩ [.scalar 7, .scalar 8]).1.coeff 2 = 0 ∧
      (WrapperEigenVector.set_slice_with_eigen_vector (VectorType.ofList [(0 : Int), 0, 0])
        ⟨some 1, some 3, none⟩ (VectorType.ofList [7, 8])).2 = .ok () ∧
      (WrapperEigenVector.set_slice_with_eigen_vector (VectorType.ofList [(0 : Int), 0, 0])
        ⟨some 1, some 3, none⟩ (VectorType.ofList [7, 8])).1.coeff 1 = 7 ∧
      (WrapperEigenVector.set_slice_with_eigen_vector (VectorType.ofList [(0 : Int), 0, 0])
        ⟨some 1, some 3, none⟩ (VectorType.ofList [7, 8])).1.coeff 2 = 8 :=
  ⟨rfl, ⟨_, rfl⟩, by decide, by decide, rfl, by decide, by decide⟩

/-- C5, evaluated where the code departs from it.  The assignment `m[1, 0:2] = a` on a
2 x 2 matrix of zeros selects the block of rows `[1, 2)` and columns `[0, 2)`; the row
loop runs from `row_start = 1` while `i < row_stop - row_start = 1`, so for every
array `a` nothing is read or written and the call returns normally with the matrix
still zero, where `set_slice_with_eigen_matrix` with the 1 x 2 matrix `[[5, 6]]` makes
`m(1, 0) = 5` and `m(1, 1) = 6`. -/
theorem set_slice_with_array_loop_bounds_are_extents (array : NumericArray2 Int) :
    WrapperEigenMatrix.get_slice_data (.int 1) 2 = .ok (1, 2) ∧
      WrapperEigenMatrix.get_slice_data (.slice ⟨some 0, some 2, none⟩) 2 = .ok (0, 2) ∧
      (WrapperEigenMatrix.set_slice_with_array (MatrixType.ofRows 2 [[(0 : Int), 0], [0, 0]])
        (.int 1, .slice ⟨some 0, some 2, none⟩) array).2 = .ok () ∧
      (WrapperEigenMatrix.set_slice_with_array (MatrixType.ofRows 2 [[(0 : Int), 0], [0, 0]])
        (.int 1, .slice ⟨some 0, some 2, none⟩) array).1
        = MatrixType.ofRows 2 [[(0 : Int), 0], [0, 0]] ∧
      (WrapperEigenMatrix.set_slice_with_eigen_matrix
        (MatrixType.ofRows 2 [[(0 : Int), 0], [0, 0]])
        (.int 1, .slice ⟨some 0, some 2, none⟩) (MatrixType.ofRows 2 [[5, 6]])).2 = .ok () ∧
      (WrapperEigenMatrix.set_slice_with_eigen_matrix
        (MatrixType.ofRows 2 [[(0 : Int), 0], [0, 0]])
        (.int 1, .slice ⟨some 0, some 2, none⟩) (MatrixType.ofRows 2 [[5, 6]])).1.coeff 1 0 = 5 ∧
      (WrapperEigenMatrix.set_slice_with_eigen_matrix
        (MatrixType.ofRows 2 [[(0 : Int), 0], [0, 0]])
        (.int 1, .slice ⟨some 0, some 2, none⟩) (MatrixType.ofRows 2 [[5, 6]])).1.coeff 1 1 = 6 :=
  ⟨rfl, rfl, rfl, rfl, rfl, by decide, by decide⟩

/-- A running maximum is at least its starting value. -/
theorem foldl_max_ge_init (g : Nat → ℚ) (l : List Nat) (a : ℚ) :
    a ≤ l.foldl (fun acc k => max acc (g k)) a := by
  induction l generalizing a with
  | nil => simp
  | cons k t ih =>
    simp only [List.foldl_cons]
    exact le_trans (le_max_left a (g k)) (ih _)

/-- A running maximum is at least every value it has met. -/
theorem foldl_max_ge_mem (g : Nat → ℚ) (l : List Nat) (a : ℚ) (k : Nat) (hk : k ∈ l) :
    g k ≤ l.foldl (fun acc k => max acc (g k)) a := by
  induction l generalizing a with
  | nil => cases hk
  | cons j t ih =>
    simp only [List.foldl_cons]
    rcases List.mem_cons.mp hk with h | h
    · subst h
      exact le_trans (le_max_right a (g k)) (foldl_max_ge_init g t _)
    · exact ih _ h

/-- Every entry of a vector is bounded by its norm. -/
theorem VectorType.abs_coeff_le_normInf (v : VectorType ℚ) (k : Nat) (hk : k < v.rows) :
    |v.coeff (k : Int)| ≤ v.normInf := by
  unfold VectorType.normInf
  exact foldl_max_ge_mem (fun k => |v.coeff (k : Int)|) (List.range v.rows) 0 k
    (List.mem_range.mpr hk)

/-- Appending constraint rows keeps the columns and the rows already there. -/
theorem foldl_appendRow_spec (cs : List (Vector × ℚ)) (A : Matrix) :
    (cs.foldl (fun A c => A.appendRow c.1) A).cols = A.cols ∧
      A.rows ≤ (cs.foldl (fun A c => A.appendRow c.1) A).rows ∧
      ∀ (i : Nat) (j : Int), i < A.rows →
        (cs.foldl (fun A c => A.appendRow c.1) A).coeff i j = A.coeff i j := by
  induction cs generalizing A with
  | nil => simp
  | cons c t ih =>
    simp only [List.foldl_cons]
    obtain ⟨h1, h2, h3⟩ := ih (A.appendRow c.1)
    refine ⟨h1, ?_, ?_⟩
    · have : (A.appendRow c.1).rows = A.rows + 1 := rfl
      omega
    · intro i j hi
      have hlt : i < (A.appendRow c.1).rows := by
        have : (A.appendRow c.1).rows = A.rows + 1 := rfl
        omega
      rw [h3 i j hlt]
      have hne : ¬ ((i : Int) = (A.rows : Int)) := by omega
      simp [MatrixType.appendRow, hne]

/-- Appending constraint values keeps the entries already there. -/
theorem foldl_appendEntry_spec (cs : List (Vector × ℚ)) (v : Vector) :
    v.rows ≤ (cs.foldl (fun v c => v.appendEntry c.2) v).rows ∧
      ∀ (i : Nat), i < v.rows →
        (cs.foldl (fun v c => v.appendEntry c.2) v).coeff i = v.coeff i := by
  induction cs generalizing v with
  | nil => simp
  | cons c t ih =>
    simp only [List.foldl_cons]
    obtain ⟨h2, h3⟩ := ih (v.appendEntry c.2)
    refine ⟨?_, ?_⟩
    · have : (v.appendEntry c.2).rows = v.rows + 1 := rfl
      omega
    · intro i hi
      have hlt : i < (v.appendEntry c.2).rows := by
        have : (v.appendEntry c.2).rows = v.rows + 1 := rfl
        omega
      rw [h3 i hlt]
      have hne : ¬ ((i : Int) = (v.rows : Int)) := by omega
      simp [VectorType.appendEntry, hne]

/-- An iteration that ends with the flag set reports an iterate whose residuals are all
below the tolerance. -/
theorem OptimumSolver.iterate_converged (engine : Engine) (problem : OptimumProblem)
    (options : OptimumOptions) (fuel iters : Nat) (best cur : OptimumState)
    (h : (OptimumSolver.iterate engine problem options fuel iters best cur).converged = true) :
    problem.residualsBelow options
      (OptimumSolver.iterate engine problem options fuel iters best cur).state = true := by
  induction fuel generalizing iters best cur with
  | zero =>
    unfold OptimumSolver.iterate at h ⊢
    by_cases hb : problem.residualsBelow options cur = true
    · simp [hb]
    · simp [hb] at h
  | succ n ih =>
    unfold OptimumSolver.iterate at h ⊢
    by_cases hb : problem.residualsBelow options cur = true
    · simp [hb]
    · simp only [hb] at h ⊢
      cases hstep : engine.newtonStep problem options cur with
      | none => simp [hstep] at h
      | some next =>
        simp only [hstep] at h ⊢
        exact ih _ _ _ h

/-- A sum of non-negative terms is non-negative. -/
theorem sumRange_nonneg (n : Nat) (f : Int → ℚ) (h : ∀ k : Nat, k < n → 0 ≤ f (k : Int)) :
    0 ≤ sumRange n f := by
  unfold sumRange
  apply List.sum_nonneg
  intro x hx
  obtain ⟨k, hk, rfl⟩ := List.mem_map.mp hx
  exact h k (List.mem_range.mp hk)

/-- The primal residual of the translated problem, on a row of the formula matrix, is
the mass balance defect of that element. -/
theorem EquilibriumProblem.primalResidual_coeff (problem : EquilibriumProblem)
    (s : OptimumState) (i : Nat) (hi : i < problem.system.formulaMatrix.rows)
    (hb : problem.b.rows = problem.system.formulaMatrix.rows) :
    (problem.translate.primalResidual s).coeff (i : Int)
      = (problem.system.formulaMatrix.mulVec s.x).coeff (i : Int) - problem.b.coeff (i : Int) := by
  obtain ⟨hA1, _, hA3⟩ := foldl_appendRow_spec problem.constraints problem.system.formulaMatrix
  obtain ⟨_, hb3⟩ := foldl_appendEntry_spec problem.constraints problem.b
  simp only [OptimumProblem.primalResidual, EquilibriumProblem.translate,
    EquilibriumProblem.constraintMatrix, EquilibriumProblem.constraintValues,
    MatrixType.mulVec, hA1]
  rw [hb3 i (by omega)]
  congr 2
  funext j
  rw [hA3 i j hi]

/-- The rows of the formula matrix are rows of the translated constraint matrix. -/
theorem EquilibriumProblem.rows_le_translate (problem : EquilibriumProblem) :
    problem.system.formulaMatrix.rows ≤ problem.translate.A.rows :=
  (foldl_appendRow_spec problem.constraints problem.system.formulaMatrix).2.1

/-- What `consistent` checks about the element amounts. -/
theorem EquilibriumProblem.consistent_rows (problem : EquilibriumProblem)
    (state : EquilibriumState) (h : problem.consistent state = true) :
    problem.b.rows = problem.system.formulaMatrix.rows := by
  simp only [EquilibriumProblem.consistent, Bool.and_eq_true, decide_eq_true_eq] at h
  exact h.1.2

/-- A solve of a problem whose dimensions fit returns, and what it returns. -/
theorem EquilibriumSolver.solve_ok (engine : Engine) (problem : EquilibriumProblem)
    (state : EquilibriumState) (options : EquilibriumOptions)
    (hwf : problem.consistent state = true) :
    ∃ st r, EquilibriumSolver.solve engine problem state options = .ok (st, r) ∧
      r.n = (OptimumSolver.solve engine problem.translate state.n options.optimum).x ∧
      r.statistics.converged
        = (OptimumSolver.solve engine problem.translate state.n options.optimum).statistics.converged := by
  unfold EquilibriumSolver.solve
  rw [if_pos hwf]
  exact ⟨_, _, rfl, rfl, rfl⟩

/-- A solve that returns was given a problem whose dimensions fit. -/
theorem EquilibriumSolver.consistent_of_ok (engine : Engine) (problem : EquilibriumProblem)
    (state : EquilibriumState) (options : EquilibriumOptions) (st : EquilibriumState)
    (r : EquilibriumResult)
    (h : EquilibriumSolver.solve engine problem state options = .ok (st, r)) :
    problem.consistent state = true := by
  by_contra hc
  simp [EquilibriumSolver.solve, hc] at h

/-- C10 (in the model of the absent solver).  Mass conservation: in every result whose
convergence flag is true, each entry of `formulaMatrix * n` is within the configured
tolerance of the corresponding element amount in `b`. -/
theorem mass_conservation (engine : Engine) (problem : EquilibriumProblem)
    (state : EquilibriumState) (options : EquilibriumOptions) (st : EquilibriumState)
    (r : EquilibriumResult)
    (hsolve : EquilibriumSolver.solve engine problem state options = .ok (st, r))
    (hconv : r.statistics.converged = true) :
    ∀ i : Nat, i < problem.system.formulaMatrix.rows →
      |(problem.system.formulaMatrix.mulVec r.n).coeff (i : Int) - problem.b.coeff (i : Int)|
        ≤ options.optimum.tolerance := by
  intro i hi
  have hwf := EquilibriumSolver.consistent_of_ok engine problem state options st r hsolve
  obtain ⟨st', r', hok, hn, hflag⟩ :=
    EquilibriumSolver.solve_ok engine problem state options hwf
  rw [hsolve] at hok
  simp only [Except.ok.injEq, Prod.mk.injEq] at hok
  obtain ⟨_, rfl⟩ := hok
  rw [hflag] at hconv
  have hbelow := OptimumSolver.iterate_converged engine problem.translate options.optimum
    options.optimum.maxIterations 0 _ _ hconv
  simp only [OptimumProblem.residualsBelow, OptimumProblem.primalFeasibility, Bool.and_eq_true,
    decide_eq_true_eq] at hbelow
  have hle := VectorType.abs_coeff_le_normInf (problem.translate.primalResidual
    (OptimumSolver.iterate engine problem.translate options.optimum
      options.optimum.maxIterations 0
      (OptimumSolver.seed engine problem.translate state.n options.optimum)
      (OptimumSolver.seed engine problem.translate state.n options.optimum)).state) i
    (lt_of_lt_of_le hi problem.rows_le_translate)
  rw [problem.primalResidual_coeff _ i hi (problem.consistent_rows state hwf)] at hle
  rw [hn]
  exact le_of_lt (lt_of_le_of_lt (le_trans hle (le_max_left _ _)) hbelow.1.1)

/-- Witness of C10: the feasible problem `n_A + 2 n_B = 2` solved from `n = [0, 2]`,
which one iteration of the engine brings to the balanced amounts `[0, 1]`. -/
theorem mass_conservation_witness :
    ∃ st r, EquilibriumSolver.solve halvingEngine feasibleProblem doubledState allDerivatives
        = .ok (st, r) ∧
      r.statistics.converged = true ∧ r.statistics.iterations = 1 ∧
      |(feasibleProblem.system.formulaMatrix.mulVec r.n).coeff ((0 : Nat) : Int)
          - feasibleProblem.b.coeff ((0 : Nat) : Int)| ≤ allDerivatives.optimum.tolerance :=
  ⟨_, _, rfl, by decide!, by decide!,
    mass_conservation halvingEngine feasibleProblem doubledState allDerivatives _ _ rfl
      (by decide!) 0 (by decide)⟩

/-- The matrix's `get_slice_data` rejects every slice that specifies a step, before it
looks at the bounds. -/
theorem WrapperEigenMatrix.matrix_get_slice_data_step (arg : PyIndex) (max : Int)
    (h : ¬ arg.stepless) :
    WrapperEigenMatrix.get_slice_data arg max
      = .error (.IndexError "slice step size not supported") := by
  cases arg with
  | int k => exact absurd trivial h
  | slice s =>
    simp only [PyIndex.stepless] at h
    have hs : s.step.isSome = true := by
      cases hh : s.step with
      | none => exact absurd hh h
      | some x => rfl
    simp only [WrapperEigenMatrix.get_slice_data, hs, if_true, SliceStepError]

/-- On a step-less selection the matrix's `get_slice_data` returns a pair or raises the
bounds error. -/
theorem WrapperEigenMatrix.matrix_get_slice_data_stepless (arg : PyIndex) (max : Int)
    (h : arg.stepless) :
    (∃ p, WrapperEigenMatrix.get_slice_data arg max = .ok p) ∨
      WrapperEigenMatrix.get_slice_data arg max
        = .error (.IndexError "slice index out of range") := by
  cases arg with
  | int k =>
    simp only [WrapperEigenMatrix.get_slice_data, IndexError]
    split_ifs
    · exact Or.inr rfl
    · exact Or.inl ⟨_, rfl⟩
  | slice s =>
    simp only [PyIndex.stepless] at h
    simp only [WrapperEigenMatrix.get_slice_data, IndexError, h, Option.isSome_none,
      Bool.false_eq_true, if_false]
    split_ifs
    · exact Or.inr rfl
    · exact Or.inl ⟨_, rfl⟩

/-- C11, at calls where it fails.  The vector wrapper never looks at the step: the
assignment `v[0:3:2] = 5` on the vector `[0, 0, 0]` is accepted, returns normally and
sets every entry of `[0, 3)`, the skipped `v[1]` included, and `v[0:3:2]` returns a
vector.  The matrix wrapper validates the row selection first: the access `m[5, ::2]`
of a 2 x 2 matrix is rejected with "slice index out of range", not with the step
error. -/
theorem slice_step_ignored_by_vector_wrapper :
    ((WrapperEigenVector.set_slice_with_scalar (VectorType.ofList [(0 : Int), 0, 0])
          ⟨some 0, some 3, some 2⟩ 5).2 = .ok () ∧
        (WrapperEigenVector.set_slice_with_scalar (VectorType.ofList [(0 : Int), 0, 0])
          ⟨some 0, some 3, some 2⟩ 5).1.coeff 0 = 5 ∧
        (WrapperEigenVector.set_slice_with_scalar (VectorType.ofList [(0 : Int), 0, 0])
          ⟨some 0, some 3, some 2⟩ 5).1.coeff 1 = 5 ∧
        (∃ v, (WrapperEigenVector.get_slice (VectorType.ofList [(0 : Int), 0, 0])
          ⟨some 0, some 3, some 2⟩).2 = .ok (.vector v))) ∧
      (WrapperEigenMatrix.get_item (MatrixType.ofRows 2 [[(1 : Int), 2], [3, 4]])
        (.int 5, .slice ⟨none, none, some 2⟩)).2
        = .error (.IndexError "slice index out of range") :=
  ⟨⟨rfl, by decide, by decide, ⟨_, rfl⟩⟩, rfl⟩

/-- C11 as amended, for the matrix wrapper.  When the row or the column selection is a
slice that specifies a step, each of `get_item`, `set_item`,
`set_slice_with_eigen_matrix` and `set_slice_with_array` is rejected with an IndexError
and leaves the matrix unchanged.  The error is "slice step size not supported" when
the row selection specifies a step or is accepted, and it is the "slice index out of
range" of the row selection when that one is step-less and out of range; one of the
two is always the case. -/
theorem matrix_slice_step_rejected {α : Type} (self : MatrixType α)
    (tuple : PyIndex × PyIndex) (scalar : α) (mat : MatrixType α) (array : NumericArray2 α)
    (hstep : ¬ tuple.1.stepless ∨ ¬ tuple.2.stepless) :
    ((¬ tuple.1.stepless ∨ ∃ p, WrapperEigenMatrix.get_slice_data tuple.1 self.rows = .ok p) →
        WrapperEigenMatrix.get_item self tuple
            = (self, .error (.IndexError "slice step size not supported")) ∧
          WrapperEigenMatrix.set_item self tuple scalar
            = (self, .error (.IndexError "slice step size not supported")) ∧
          WrapperEigenMatrix.set_slice_with_eigen_matrix self tuple mat
            = (self, .error (.IndexError "slice step size not supported")) ∧
          WrapperEigenMatrix.set_slice_with_array self tuple array
            = (self, .error (.IndexError "slice step size not supported"))) ∧
      ((tuple.1.stepless ∧ WrapperEigenMatrix.get_slice_data tuple.1 self.rows
            = .error (.IndexError "slice index out of range")) →
        WrapperEigenMatrix.get_item self tuple
            = (self, .error (.IndexError "slice index out of range")) ∧
          WrapperEigenMatrix.set_item self tuple scalar
            = (self, .error (.IndexError "slice index out of range")) ∧
          WrapperEigenMatrix.set_slice_with_eigen_matrix self tuple mat
            = (self, .error (.IndexError "slice index out of range")) ∧
          WrapperEigenMatrix.set_slice_with_array self tuple array
            = (self, .error (.IndexError "slice index out of range"))) ∧
      ((¬ tuple.1.stepless ∨ ∃ p, WrapperEigenMatrix.get_slice_data tuple.1 self.rows = .ok p) ∨
        (tuple.1.stepless ∧ WrapperEigenMatrix.get_slice_data tuple.1 self.rows
          = .error (.IndexError "slice index out of range"))) := by
  refine ⟨?_, ?_, ?_⟩
  · intro h
    by_cases h1 : tuple.1.stepless
    · have h2 : ¬ tuple.2.stepless := by
        rcases hstep with h | h
        · exact absurd h1 h
        · exact h
      have hrow : ∃ p, WrapperEigenMatrix.get_slice_data tuple.1 self.rows = .ok p := by
        rcases h with h | h
        · exact absurd h1 h
        · exact h
      obtain ⟨⟨a, b⟩, hp⟩ := hrow
      have hcol := WrapperEigenMatrix.matrix_get_slice_data_step tuple.2 self.cols h2
      simp only [WrapperEigenMatrix.get_item, WrapperEigenMatrix.set_item,
        WrapperEigenMatrix.set_slice_with_eigen_matrix, WrapperEigenMatrix.set_slice_with_array,
        hp, hcol, and_self]
    · have hrow := WrapperEigenMatrix.matrix_get_slice_data_step tuple.1 self.rows h1
      simp only [WrapperEigenMatrix.get_item, WrapperEigenMatrix.set_item,
        WrapperEigenMatrix.set_slice_with_eigen_matrix, WrapperEigenMatrix.set_slice_with_array,
        hrow, and_self]
  · intro h
    simp only [WrapperEigenMatrix.get_item, WrapperEigenMatrix.set_item,
      WrapperEigenMatrix.set_slice_with_eigen_matrix, WrapperEigenMatrix.set_slice_with_array,
      h.2, and_self]
  · by_cases h1 : tuple.1.stepless
    · rcases WrapperEigenMatrix.matrix_get_slice_data_stepless tuple.1 self.rows h1 with h | h
      · exact Or.inl (Or.inr h)
      · exact Or.inr ⟨h1, h⟩
    · exact Or.inl (Or.inl h1)

/-- Witness of the amended C11: the selection `m[0, ::2]` of a 2 x 2 matrix, whose row
selection is accepted and whose column selection specifies a step. -/
theorem matrix_slice_step_rejected_witness :
    (¬ (PyIndex.int 0).stepless ∨ ¬ (PyIndex.slice ⟨none, none, some 2⟩).stepless) ∧
      WrapperEigenMatrix.set_item (MatrixType.ofRows 2 [[(1 : Int), 2], [3, 4]])
          (.int 0, .slice ⟨none, none, some 2⟩) 7
        = (MatrixType.ofRows 2 [[(1 : Int), 2], [3, 4]],
            .error (.IndexError "slice step size not supported")) :=
  ⟨Or.inr (fun h => Option.noConfusion h),
    ((matrix_slice_step_rejected (MatrixType.ofRows 2 [[(1 : Int), 2], [3, 4]])
        (.int 0, .slice ⟨none, none, some 2⟩) 7 (MatrixType.ofRows 1 [[0]]) ⟨(0, 0), fun _ _ => .ok 0⟩
        (Or.inr (fun h => Option.noConfusion h))).1 (Or.inr ⟨(0, 1), rfl⟩)).2.1⟩

/-- C12, evaluated where the code departs from it.  On a 2 x 2 matrix the assignment
`m[1, 2:2] = 7` has both selections accepted (rows `[1, 2)`, the empty column range
`[2, 2)`); `col_stop - row_start` is 1, so `set_item` takes the single-entry branch and
writes the position `(1, 2)`, whose column is not below `cols = 2`: the call ends in the
out-of-range branch of the bounds-checked write. -/
theorem set_item_writes_outside_the_matrix :
    WrapperEigenMatrix.get_slice_data (.int 1)
        (MatrixType.ofRows 2 [[(0 : Int), 0], [0, 0]]).rows = .ok (1, 2) ∧
      WrapperEigenMatrix.get_slice_data (.slice ⟨some 2, some 2, none⟩)
        (MatrixType.ofRows 2 [[(0 : Int), 0], [0, 0]]).cols = .ok (2, 2) ∧
      WrapperEigenMatrix.set_item (MatrixType.ofRows 2 [[(0 : Int), 0], [0, 0]])
          (.int 1, .slice ⟨some 2, some 2, none⟩) 7
        = (MatrixType.ofRows 2 [[(0 : Int), 0], [0, 0]]).write 1 2 7 ∧
      ¬ ((2 : Int) < (MatrixType.ofRows 2 [[(0 : Int), 0], [0, 0]]).cols) ∧
      (WrapperEigenMatrix.set_item (MatrixType.ofRows 2 [[(0 : Int), 0], [0, 0]])
        (.int 1, .slice ⟨some 2, some 2, none⟩) 7).2 = .error .EigenAssert :=
  ⟨rfl, rfl, rfl, by decide, rfl⟩

end Reaktor
